import Mathlib

/-!
# Verification of the Multidown chunked download engine

Shallow embedding, in Lean 4, of the core of the Multidown command-line
downloader (Rust).  Each definition below is translated from a named item of
the Rust source: the error taxonomy (`src/core/error.rs`), the retry
classifier (`src/core/task/retry.rs`), the chunk manager
(`src/core/task/chunk_manager.rs`), the task-actor handlers
(`src/core/task/handlers.rs` and `actor.rs`), the single-connection download
path (`src/core/task/download.rs`) and the task manager
(`src/core/actor_manager.rs`).  Machine integers (`u64`, `usize`) are
modelled as `Nat`: none of the verified operations can overflow `u64` for
the sizes involved, and Rust arithmetic on them panics rather than wraps in
debug builds.  Side-effecting code is modelled by explicit state passing;
file-system writes and deletions are modelled as explicit effect lists.
-/

namespace Multidown

/-! ## String primitives

Rust `str::to_lowercase` and `str::contains`.  Every string the verified
code inspects is ASCII or CJK; `to_lowercase` only changes ASCII letters on
that alphabet, which is exactly what `Char.toLower` does. -/

/-- Rust `str::to_lowercase` restricted to the ASCII/CJK alphabet used by the
program. -/
def strLower (s : String) : String :=
  String.mk (s.data.map Char.toLower)

/-- Prefix test on character lists. -/
def isPrefixList : List Char → List Char → Bool
  | [], _ => true
  | _ :: _, [] => false
  | a :: as, b :: bs => a = b && isPrefixList as bs

/-- Infix (substring) test on character lists. -/
def isInfixList (needle : List Char) : List Char → Bool
  | [] => needle.isEmpty
  | b :: bs => isPrefixList needle (b :: bs) || isInfixList needle bs

/-- Rust `str::contains(needle)`: substring test. -/
def strContains (hay needle : String) : Bool :=
  isInfixList needle.toList hay.toList

/-! ## Error taxonomy — `src/core/error.rs`, `enum DownloadError` -/

/-- `DownloadError` from `src/core/error.rs` (lines 9–58).  Numeric payloads
(`u64`) are `Nat`. -/
inductive DownloadError where
  | NetworkError (msg : String)
  | IoError (msg : String)
  | InvalidUrl (msg : String)
  | UnsupportedProtocol (msg : String)
  | FileExists (msg : String)
  | InsufficientSpace (required available : Nat)
  | PermissionError (msg : String)
  | Timeout
  | Cancelled
  | Paused
  | MaxRetriesExceeded (n : Nat)
  | SizeMismatch (expected actual : Nat)
  | ChecksumMismatch (expected actual : String)
  | ServerError (msg : String)
  | MailboxError (msg : String)
  | SendError (msg : String)
  | Unknown (msg : String)
  | ResumeFailed (msg : String)
deriving DecidableEq, Repr

/-- The `thiserror`-derived `Display` implementation of `DownloadError`
(the `#[error("...")]` format strings of `src/core/error.rs`). -/
def DownloadError.display : DownloadError → String
  | .NetworkError m => "网络错误: " ++ m
  | .IoError m => "IO错误: " ++ m
  | .InvalidUrl m => "无效的URL: " ++ m
  | .UnsupportedProtocol m => "不支持的协议: " ++ m
  | .FileExists m => "文件已存在: " ++ m
  | .InsufficientSpace r a =>
      "磁盘空间不足: 需要 " ++ toString r ++ " 字节, 可用 " ++ toString a ++ " 字节"
  | .PermissionError m => "权限错误: " ++ m
  | .Timeout => "下载超时"
  | .Cancelled => "下载被取消"
  | .Paused => "下载暂停"
  | .MaxRetriesExceeded n => "重试次数超过限制: " ++ toString n
  | .SizeMismatch e a =>
      "文件大小不匹配: 预期 " ++ toString e ++ " 字节, 实际 " ++ toString a ++ " 字节"
  | .ChecksumMismatch e a => "校验和不匹配: 预期 " ++ e ++ ", 实际 " ++ a
  | .ServerError m => "服务器错误: " ++ m
  | .MailboxError m => "Actix邮箱错误: " ++ m
  | .SendError m => "Actix消息发送失败: " ++ m
  | .Unknown m => "未知错误: " ++ m
  | .ResumeFailed m => "续传失败: " ++ m

/-! ## Retry policy — `src/core/task/retry.rs` -/

/-- `RetryStrategy` (`src/core/task/retry.rs` lines 6–13).  The delay fields
(`base_delay`, `max_delay`, `backoff_multiplier`, `jitter_factor`) drive the
floating-point backoff computation, which no claim below concerns; only the
classification parameters are carried. -/
structure RetryStrategy where
  max_retries : Nat
  retryable_errors : List String
deriving Repr

/-- The default retryable-substring list (`RetryStrategy::default`,
`retry.rs` lines 17–39). -/
def RetryStrategy.default : RetryStrategy where
  max_retries := 3
  retryable_errors :=
    ["network error", "timeout", "connection reset", "temporary failure",
     "connection refused", "connection timeout", "dns resolution failed",
     "ssl error", "certificate error", "server error", "gateway timeout",
     "service unavailable"]

/-- `RetryStrategy::should_retry` (`retry.rs` lines 43–77), translated
branch by branch.  The `IoError` arm lowers the *display* form of the error
(Rust `error.to_string()`), the `Unknown` arm lowers the raw message — as in
the source. -/
def RetryStrategy.should_retry (s : RetryStrategy) (error : DownloadError)
    (retry_count : Nat) : Bool :=
  if s.max_retries ≤ retry_count then false
  else
    match error with
    | .NetworkError _ => true
    | .ServerError msg =>
        strContains msg "500" || strContains msg "502" || strContains msg "503" ||
        strContains msg "504" || strContains msg "507" || strContains msg "508"
    | .Timeout => true
    | .IoError m =>
        let error_str := strLower (DownloadError.display (.IoError m))
        s.retryable_errors.any fun retryable => strContains error_str retryable
    | .SizeMismatch _ _ => false
    | .InvalidUrl _ => false
    | .FileExists _ => false
    | .ResumeFailed _ => false
    | .Unknown msg =>
        let error_str := strLower msg
        s.retryable_errors.any fun retryable => strContains error_str retryable
    | _ => false

/-- The hard-coded `RETRYABLE_ERRORS` table of
`RetryContext::is_retryable_error` (`retry.rs` lines 126–139). -/
def RETRYABLE_ERRORS : List String :=
  ["network error", "timeout", "connection reset", "temporary failure",
   "connection refused", "connection timeout", "dns resolution failed",
   "ssl error", "certificate error", "server error", "gateway timeout",
   "service unavailable"]

/-- `RetryContext` (`retry.rs` lines 94–100): the task-wide retry budget.
The two `Duration` fields and the timestamp drive sleeping only and are not
carried. -/
structure RetryContext where
  max_retries : Nat
  current_retries : Nat
deriving Repr, DecidableEq

/-- `RetryContext::is_retryable_error` (`retry.rs` lines 124–147):
substring match of the lowered display form against `RETRYABLE_ERRORS`. -/
def RetryContext.is_retryable_error (_ : RetryContext) (error : DownloadError) : Bool :=
  let error_str := strLower error.display
  RETRYABLE_ERRORS.any fun retryable => strContains error_str retryable

/-- `RetryContext::should_retry` (`retry.rs` lines 114–121). -/
def RetryContext.should_retry (c : RetryContext) (error : DownloadError) : Bool :=
  if c.max_retries ≤ c.current_retries then false
  else c.is_retryable_error error

/-! ## File metadata and configuration -/

/-- `FileInfo` (`src/core/task/util.rs`): the result of the HEAD probe. -/
structure FileInfo where
  size : Nat
  supports_range : Bool
  last_modified : Option String
  etag : Option String
deriving Repr, DecidableEq

/-- The configuration fields of `Config` (`src/config/mod.rs`) consumed by
the verified core.  UI, notification and HTTP-client knobs are omitted. -/
structure Config where
  max_concurrent_downloads : Nat
  chunk_size : Nat
  min_chunk_size : Nat
  enable_chunked_download : Bool
  enable_resume : Bool
  retry_count : Nat
  retryable_errors : List String
  speed_limit_kb : Nat
deriving Repr

/-! ## Chunk manager — `src/core/task/chunk_manager.rs` -/

/-- `DownloadChunk` (`chunk_manager.rs` lines 16–21).  The Rust field `end`
is a Lean keyword and is escaped with guillemets. -/
structure DownloadChunk where
  start : Nat
  «end» : Nat
  downloaded : Nat
  completed : Bool
deriving Repr, DecidableEq, Inhabited

/-- `ChunkedDownloadManager` (`chunk_manager.rs` lines 36–46).  The three
`Arc<Mutex<Vec<usize>>>` membership lists are plain lists: every operation of
the actor runs on its own execution context and takes the locks one at a
time.  `temp_dir` and `file_name` are carried for the file-system effect
model. -/
structure ChunkedDownloadManager where
  chunks : List DownloadChunk
  total_size : Nat
  temp_dir : String
  file_name : String
  active_chunks : List Nat
  completed_chunks : List Nat
  failed_chunks : List Nat
  max_concurrent_chunks : Nat
  retry_context : RetryContext
deriving Repr

/-- The temp-directory name computed by `ChunkedDownloadManager::new`
(`chunk_manager.rs` line 70): path separators escaped to underscores. -/
def sanitizeTempDir (file_name : String) : String :=
  "downloads/temp/" ++
    String.mk (file_name.data.map fun c => if c = '/' ∨ c = '\\' then '_' else c)

/-- `ChunkedDownloadManager::new` (`chunk_manager.rs` lines 49–84):
`num_chunks = ⌈total_size / chunk_size⌉` chunks, chunk `i` spanning
`[i*chunk_size, (i+1)*chunk_size - 1]` except the last, which ends at
`total_size - 1`.  `RetryContext::new(RetryStrategy::default())` is the
default budget of 3 with 0 used. -/
def ChunkedDownloadManager.new (total_size chunk_size : Nat) (file_name : String) :
    ChunkedDownloadManager :=
  let num_chunks := (total_size + chunk_size - 1) / chunk_size
  let chunks := (List.range num_chunks).map fun i =>
    { start := i * chunk_size
      «end» := if i = num_chunks - 1 then total_size - 1 else (i + 1) * chunk_size - 1
      downloaded := 0
      completed := false : DownloadChunk }
  { chunks := chunks
    total_size := total_size
    temp_dir := sanitizeTempDir file_name
    file_name := file_name
    active_chunks := []
    completed_chunks := []
    failed_chunks := []
    max_concurrent_chunks := 3
    retry_context := { max_retries := RetryStrategy.default.max_retries, current_retries := 0 } }

/-- Update the `i`-th chunk in place, as Rust `self.chunks.get_mut(i)`:
out-of-range indices leave the list unchanged. -/
def modifyChunk (chunks : List DownloadChunk) (i : Nat) (f : DownloadChunk → DownloadChunk) :
    List DownloadChunk :=
  match chunks, i with
  | [], _ => []
  | c :: rest, 0 => f c :: rest
  | c :: rest, n + 1 => c :: modifyChunk rest n f

/-- `ChunkedDownloadManager::is_chunk_active` (`chunk_manager.rs` 122–124). -/
def ChunkedDownloadManager.is_chunk_active (m : ChunkedDownloadManager) (chunk_index : Nat) : Bool :=
  m.active_chunks.contains chunk_index

/-- `ChunkedDownloadManager::is_chunk_failed` (`chunk_manager.rs` 127–129). -/
def ChunkedDownloadManager.is_chunk_failed (m : ChunkedDownloadManager) (chunk_index : Nat) : Bool :=
  m.failed_chunks.contains chunk_index

/-- `ChunkedDownloadManager::get_next_available_chunk` (`chunk_manager.rs`
lines 92–119).  Returns the assigned index (marked active) together with the
updated manager; `none` when the concurrency cap is reached or no chunk is
assignable.  The source collects the indices of chunks that are neither
completed (flag) nor active nor failed and takes the first. -/
def ChunkedDownloadManager.get_next_available_chunk (m : ChunkedDownloadManager) :
    Option Nat × ChunkedDownloadManager :=
  if m.max_concurrent_chunks ≤ m.active_chunks.length then (none, m)
  else
    let available_indices := (List.range m.chunks.length).filter fun i =>
      !(m.chunks.getD i default).completed && !m.is_chunk_active i && !m.is_chunk_failed i
    match available_indices with
    | [] => (none, m)
    | chunk_index :: _ =>
        (some chunk_index, { m with active_chunks := m.active_chunks ++ [chunk_index] })

/-- `ChunkedDownloadManager::mark_chunk_completed` (`chunk_manager.rs` lines
132–152): set the chunk's flag and byte counter, remove the index from
`active_chunks` (`retain`), push it onto `completed_chunks`, and remove it
from `failed_chunks`. -/
def ChunkedDownloadManager.mark_chunk_completed (m : ChunkedDownloadManager)
    (chunk_index : Nat) : ChunkedDownloadManager :=
  { m with
    chunks := modifyChunk m.chunks chunk_index fun c =>
      { c with completed := true, downloaded := c.«end» - c.start + 1 }
    active_chunks := m.active_chunks.filter fun x => x ≠ chunk_index
    completed_chunks := m.completed_chunks ++ [chunk_index]
    failed_chunks := m.failed_chunks.filter fun x => x ≠ chunk_index }

/-- `ChunkedDownloadManager::mark_chunk_failed` (`chunk_manager.rs` lines
155–167): remove the index from `active_chunks`, push it onto
`failed_chunks` unless already present. -/
def ChunkedDownloadManager.mark_chunk_failed (m : ChunkedDownloadManager)
    (chunk_index : Nat) : ChunkedDownloadManager :=
  { m with
    active_chunks := m.active_chunks.filter fun x => x ≠ chunk_index
    failed_chunks :=
      if m.failed_chunks.contains chunk_index then m.failed_chunks
      else m.failed_chunks ++ [chunk_index] }

/-- `ChunkedDownloadManager::is_completed` (`chunk_manager.rs` 201–203). -/
def ChunkedDownloadManager.is_completed (m : ChunkedDownloadManager) : Bool :=
  m.chunks.all fun chunk => chunk.completed

/-- `ChunkedDownloadManager::get_failed_chunks_for_retry` (`chunk_manager.rs`
lines 170–181): for each failed index, probe the task-wide retry context
with the hard-coded error `Unknown("chunk_download_failed")`. -/
def ChunkedDownloadManager.get_failed_chunks_for_retry (m : ChunkedDownloadManager) : List Nat :=
  m.failed_chunks.filter fun _ =>
    m.retry_context.should_retry (.Unknown "chunk_download_failed")

/-- `ChunkedDownloadManager::retry_failed_chunks` (`chunk_manager.rs` lines
324–345): for each index returned by `get_failed_chunks_for_retry` whose
chunk exists, remove it from `failed_chunks` and re-send a
`DownloadChunkMsg`.  The dispatched indices are returned in place of the
actor sends. -/
def ChunkedDownloadManager.retry_failed_chunks (m : ChunkedDownloadManager) :
    ChunkedDownloadManager × List Nat :=
  let failed_chunks := m.get_failed_chunks_for_retry
  failed_chunks.foldl
    (fun (acc : ChunkedDownloadManager × List Nat) chunk_index =>
      if chunk_index < acc.1.chunks.length then
        ({ acc.1 with failed_chunks := acc.1.failed_chunks.filter fun x => x ≠ chunk_index },
         acc.2 ++ [chunk_index])
      else acc)
    (m, [])

/-- `ChunkedDownloadManager::should_retry_failed_chunks` (`chunk_manager.rs`
lines 348–351): a retry round is due when the failed set is non-empty and
the task-wide budget is not exhausted. -/
def ChunkedDownloadManager.should_retry_failed_chunks (m : ChunkedDownloadManager) : Bool :=
  decide (0 < m.failed_chunks.length) &&
    decide (m.retry_context.current_retries < m.retry_context.max_retries)

/-- The membership-set invariant of the spec's data model (§3, I1): the
three index sets are duplicate-free, pairwise disjoint, within
`{0…N−1}`, and every index in `completed_chunks` has its chunk flagged
completed. -/
def ChunkSetInv (m : ChunkedDownloadManager) : Prop :=
  m.active_chunks.Nodup ∧ m.completed_chunks.Nodup ∧ m.failed_chunks.Nodup ∧
  (∀ i ∈ m.active_chunks, i ∉ m.completed_chunks) ∧
  (∀ i ∈ m.active_chunks, i ∉ m.failed_chunks) ∧
  (∀ i ∈ m.completed_chunks, i ∉ m.failed_chunks) ∧
  (∀ i ∈ m.active_chunks, i < m.chunks.length) ∧
  (∀ i ∈ m.completed_chunks, i < m.chunks.length) ∧
  (∀ i ∈ m.failed_chunks, i < m.chunks.length) ∧
  (∀ i ∈ m.completed_chunks, (m.chunks.getD i default).completed = true)

/-! ## Resume records -/

/-- `ResumeInfo` (`src/core/actor_manager.rs` lines 103–111).  The task id
is modelled as a `Nat` (an opaque 128-bit identifier in the source). -/
structure ResumeInfo where
  task_id : Nat
  url : String
  file : String
  downloaded_chunks : List (Nat × Nat)
  total_size : Nat
  last_modified : Option String
  etag : Option String
deriving Repr, DecidableEq

/-- The resume-record path `downloads/resume_<task-id>.json`
(`chunk_manager.rs` lines 267 and 277). -/
def resumePath (task_id : Nat) : String :=
  "downloads/resume_" ++ toString task_id ++ ".json"

/-- The restore loop of `load_and_validate_resume_info` (`chunk_manager.rs`
lines 305–318): for each stored `(start, end)` range, the first chunk with
exactly that range is flagged completed with its byte counter filled, and
its index is pushed onto `completed_chunks`. -/
def ChunkedDownloadManager.restoreRange (m : ChunkedDownloadManager) (se : Nat × Nat) :
    ChunkedDownloadManager :=
  match m.chunks.findIdx? (fun c => c.start = se.1 ∧ c.«end» = se.2) with
  | none => m
  | some index =>
      { m with
        chunks := modifyChunk m.chunks index fun c =>
          { c with completed := true, downloaded := se.2 - se.1 + 1 }
        completed_chunks := m.completed_chunks ++ [index] }

/-- `ChunkedDownloadManager::load_and_validate_resume_info`
(`chunk_manager.rs` lines 276–321), on an already-parsed record (the
missing-file and JSON-parse paths are not in question).  Validation order as
in the source: both ETags present decide alone; otherwise both
Last-Modified present decide alone; otherwise any one-sided validator fails
conservatively; on success the stored ranges are restored. -/
def ChunkedDownloadManager.load_and_validate_resume_info (m : ChunkedDownloadManager)
    (resume_info : ResumeInfo) (current_file_info : FileInfo) :
    Except DownloadError ChunkedDownloadManager :=
  match resume_info.etag, current_file_info.etag with
  | some old_etag, some new_etag =>
      if old_etag ≠ new_etag then
        .error (.ResumeFailed "ETag mismatch, file has changed.")
      else .ok (resume_info.downloaded_chunks.foldl ChunkedDownloadManager.restoreRange m)
  | _, _ =>
    match resume_info.last_modified, current_file_info.last_modified with
    | some old_lm, some new_lm =>
        if old_lm ≠ new_lm then
          .error (.ResumeFailed "Last-Modified mismatch, file has changed.")
        else .ok (resume_info.downloaded_chunks.foldl ChunkedDownloadManager.restoreRange m)
    | _, _ =>
        if resume_info.etag.isSome ≠ current_file_info.etag.isSome ∨
           resume_info.last_modified.isSome ≠ current_file_info.last_modified.isSome then
          .error (.ResumeFailed "Inconsistent resume headers (ETag/Last-Modified).")
        else .ok (resume_info.downloaded_chunks.foldl ChunkedDownloadManager.restoreRange m)

/-! ## Mode selection — `Handler<StartTask>` (`src/core/task/handlers.rs`) -/

/-- The mode-selection expression of `Handler<StartTask>::handle`
(`handlers.rs` line 75): `config.enable_chunked_download && total_size >
config.min_chunk_size as u64`. -/
def use_chunked (config : Config) (file_info : FileInfo) : Bool :=
  config.enable_chunked_download && decide (config.min_chunk_size < file_info.size)

/-- Modelled from the spec: the mode-selection rule of §4.5 step 3 — chunked
mode iff chunked download is enabled *and* the probed total size exceeds
`min_chunk_size` *and* the server advertises `Accept-Ranges: bytes`.  Stated
for comparison against `use_chunked`, which is translated from the code. -/
def use_chunked_spec (config : Config) (file_info : FileInfo) : Bool :=
  config.enable_chunked_download && decide (config.min_chunk_size < file_info.size) &&
    file_info.supports_range

/-! ## Single-connection download — `src/core/task/download.rs` -/

/-- The `Content-Length` parse of `perform_single_download` (`download.rs`
lines 87–90): a missing or unparseable header yields 0
(`.and_then(parse).unwrap_or(0)`). -/
def parseContentLength (header : Option String) : Nat :=
  (header.bind String.toNat?).getD 0

/-- `BufferManager` (`src/core/task/util.rs`): the write-through buffer.
Only the byte counters matter to the verified properties, so the byte
contents are not carried; `current_pos` and `total_written` evolve exactly
as in the source. -/
structure BufferManager where
  buffer_size : Nat
  current_pos : Nat
  total_written : Nat
deriving Repr, DecidableEq

/-- `BufferManager::new` (`util.rs`): empty buffer over a fresh file. -/
def BufferManager.new (buffer_size : Nat) : BufferManager :=
  { buffer_size := buffer_size, current_pos := 0, total_written := 0 }

/-- `BufferManager::flush` (`util.rs`): move the buffered bytes to the file
counter. -/
def BufferManager.flush (bm : BufferManager) : BufferManager :=
  if 0 < bm.current_pos then
    { bm with current_pos := 0, total_written := bm.total_written + bm.current_pos }
  else bm

/-- `BufferManager::write` (`util.rs`), at the byte-count level: repeatedly
copy `min(space_left, remaining)` bytes into the buffer and flush whenever
it fills.  The degenerate `buffer_size = 0` case, on which the Rust loop
never terminates, returns the state unchanged; both callers use fixed
positive buffer sizes. -/
def BufferManager.write (bm : BufferManager) (n : Nat) : BufferManager :=
  if n = 0 then bm
  else if h : 0 < min (bm.buffer_size - bm.current_pos) n then
    BufferManager.write
      (if bm.current_pos + min (bm.buffer_size - bm.current_pos) n = bm.buffer_size then
        { bm with
          current_pos := 0
          total_written :=
            bm.total_written + (bm.current_pos + min (bm.buffer_size - bm.current_pos) n) }
      else { bm with current_pos := bm.current_pos + min (bm.buffer_size - bm.current_pos) n })
      (n - min (bm.buffer_size - bm.current_pos) n)
  else bm
termination_by n
decreasing_by omega

/-- `perform_single_download` (`download.rs` lines 73–138) after a
successful GET, restricted to an error-free stream: the response body is a
sequence of frames (given by their byte counts), each written through the
1 MiB buffer; after the final flush the download succeeds iff
`total_written ≥ total && total > 0`, and otherwise fails with
`SizeMismatch { expected: total, actual: total_written }`. -/
def perform_single_download (total : Nat) (frames : List Nat) : Except DownloadError Unit :=
  let bm := BufferManager.new (1024 * 1024)
  let bm := frames.foldl BufferManager.write bm
  let bm := bm.flush
  let final_written := bm.total_written
  if final_written ≥ total ∧ 0 < total then .ok ()
  else .error (.SizeMismatch total final_written)

/-! ## Task status — `src/core/task/state.rs` -/

/-- `TaskStatus` (`state.rs`). -/
inductive TaskStatus where
  | Pending
  | Running
  | Completed
  | Failed (reason : String)
  | Paused
  | Cancelled
deriving Repr, DecidableEq

/-- The terminal statuses of the spec's data model. -/
def TaskStatus.isTerminal : TaskStatus → Bool
  | .Completed => true
  | .Failed _ => true
  | .Cancelled => true
  | _ => false

/-! ## Task actor — `src/core/task/actor.rs` and `handlers.rs`

The actor's handler-relevant state.  The `Option<OwnedSemaphorePermit>`
field is a Boolean (permit held or not); dropping the permit is the release.
Each handler is a function of this state; the number of permits it releases
(by `drop` of a taken or overwritten permit) is returned alongside. -/

/-- The fields of `DownloadTaskActor` (`actor.rs` lines 16–34) that the
permit and status claims concern. -/
structure TaskActor where
  status : TaskStatus
  is_paused : Bool
  is_cancelled : Bool
  permit : Bool
  chunk_manager : Option ChunkedDownloadManager
deriving Repr

/-- `Handler<StartTask>` head (`handlers.rs` lines 43–48): clear the pause
flag, go `Running`, store the fresh permit.  Overwriting `self.permit` drops
a previously held permit, which Rust counts as a release. -/
def TaskActor.handleStartTask (a : TaskActor) : TaskActor × Nat :=
  ({ a with is_paused := false, status := .Running, permit := true },
   if a.permit then 1 else 0)

/-- `Handler<PauseTask>` (`handlers.rs` lines 113–119). -/
def TaskActor.handlePauseTask (a : TaskActor) : TaskActor × Nat :=
  ({ a with is_paused := true, status := .Paused }, 0)

/-- `Handler<CancelTask>` (`handlers.rs` lines 121–130): set the cancel
flag, go `Cancelled`, wipe the temp directory.  `self.permit` is not
touched. -/
def TaskActor.handleCancelTask (a : TaskActor) : TaskActor × Nat :=
  ({ a with is_cancelled := true, status := .Cancelled }, 0)

/-- `Handler<MarkCompleted>` (`handlers.rs` lines 164–173): go `Completed`
and `drop(self.permit.take())`. -/
def TaskActor.handleMarkCompleted (a : TaskActor) : TaskActor × Nat :=
  ({ a with status := .Completed, permit := false }, if a.permit then 1 else 0)

/-- `Handler<MarkFailed>` (`handlers.rs` lines 175–184): go `Failed` and
`drop(self.permit.take())`. -/
def TaskActor.handleMarkFailed (a : TaskActor) (error : DownloadError) : TaskActor × Nat :=
  ({ a with status := .Failed error.display, permit := false }, if a.permit then 1 else 0)

/-- The control messages of the task actor (`src/core/task/messages.rs`)
whose handlers touch the permit or the status. -/
inductive TaskMsg where
  | startTask
  | pauseTask
  | cancelTask
  | markCompleted
  | markFailed (error : DownloadError)
deriving Repr, DecidableEq

/-- Dispatch one message to its handler. -/
def TaskActor.step (a : TaskActor) : TaskMsg → TaskActor × Nat
  | .startTask => a.handleStartTask
  | .pauseTask => a.handlePauseTask
  | .cancelTask => a.handleCancelTask
  | .markCompleted => a.handleMarkCompleted
  | .markFailed error => a.handleMarkFailed error

/-- Process a message sequence, accumulating the number of permits
released. -/
def TaskActor.run (a : TaskActor) : List TaskMsg → TaskActor × Nat
  | [] => (a, 0)
  | msg :: rest =>
      (((a.step msg).1.run rest).1, (a.step msg).2 + ((a.step msg).1.run rest).2)

/-! ## Chunk-completion path — `Handler<DownloadChunkMsg>` (success arm) and
`merge_chunks_and_complete`

The file-system effects of the completion path, in program order.  A
successful chunk (`handlers.rs` lines 216–227) is marked completed; with
resume enabled the resume record is (re)written; when every chunk is now
completed, `merge_chunks_and_complete` (`actor.rs` lines 130–144) runs
`merge_chunks` (`chunk_manager.rs` lines 227–244), which concatenates the
chunk files into the output and removes the temp directory, then the status
becomes `Completed`.  `merge_ok` abstracts whether every chunk temp file
opened (`merge_chunks`'s only failure source on this path). -/

/-- A file-system effect of the engine, in program order. -/
inductive FsEffect where
  | writeResume (path : String)
  | removeResume (path : String)
  | writeOutput (path : String)
  | removeTempDir (path : String)
deriving Repr, DecidableEq

/-- Whether an effect deletes a resume record. -/
def FsEffect.isRemoveResume : FsEffect → Bool
  | .removeResume _ => true
  | _ => false

/-- The success arm of `Handler<DownloadChunkMsg>` (`handlers.rs` 216–227)
for task `task_id` writing to `file`, followed by
`merge_chunks_and_complete` when the manager reports completion. -/
def TaskActor.handleChunkOk (a : TaskActor) (task_id : Nat) (file : String)
    (enable_resume : Bool) (chunk_index : Nat) (merge_ok : Bool) :
    TaskActor × List FsEffect :=
  match a.chunk_manager with
  | none => (a, [])
  | some cm =>
      let cm := cm.mark_chunk_completed chunk_index
      let resumeEffects :=
        if enable_resume then [FsEffect.writeResume (resumePath task_id)] else []
      if cm.is_completed then
        if merge_ok then
          ({ a with chunk_manager := some cm, status := .Completed },
           resumeEffects ++ [FsEffect.writeOutput file, FsEffect.removeTempDir cm.temp_dir])
        else
          ({ a with chunk_manager := some cm,
                    status := .Failed "无法打开块文件" },
           resumeEffects ++ [FsEffect.writeOutput file])
      else ({ a with chunk_manager := some cm }, resumeEffects)

/-! ## Task manager — `src/core/actor_manager.rs`

The manager's task table and its persisted copy.  `save_tasks_to_file`
(`actor_manager.rs` lines 211–217) serialises the in-memory `metas` map, so
persistence is modelled by snapshotting `metas` into `disk`. -/

/-- `DownloadTaskMeta` (`actor_manager.rs` lines 20–28); the `f32` progress
percentage is modelled as a `Nat` (the code only ever stores reported
values and the constant `100.0`). -/
structure DownloadTaskMeta where
  id : Nat
  url : String
  file : String
  status : TaskStatus
  progress : Nat
  downloaded : Nat
  total : Nat
deriving Repr, DecidableEq

/-- The manager state relevant to persistence: the ids with a live task
actor (`self.tasks`), the in-memory task table (`self.metas`) and the
last-written contents of `downloads/tasks.json`. -/
structure ManagerState where
  tasks : List Nat
  metas : List DownloadTaskMeta
  disk : List DownloadTaskMeta
deriving Repr, DecidableEq

/-- `save_tasks_to_file` (`actor_manager.rs` 211–217). -/
def ManagerState.save_tasks_to_file (s : ManagerState) : ManagerState :=
  { s with disk := s.metas }

/-- Update the meta with the given id in place (`self.metas.get_mut(&id)`). -/
def updateMeta (metas : List DownloadTaskMeta) (id : Nat)
    (f : DownloadTaskMeta → DownloadTaskMeta) : List DownloadTaskMeta :=
  metas.map fun meta => if meta.id = id then f meta else meta

/-- `Handler<CreateTask>` (`actor_manager.rs` 391–414): insert a `Pending`
record and persist the table. -/
def ManagerState.handleCreateTask (s : ManagerState) (id : Nat) (url file : String) :
    ManagerState :=
  let meta : DownloadTaskMeta :=
    { id := id, url := url, file := file, status := .Pending,
      progress := 0, downloaded := 0, total := 0 }
  ManagerState.save_tasks_to_file
    { s with tasks := s.tasks ++ [id], metas := s.metas ++ [meta] }

/-- `Handler<InternalStartTask>` (`actor_manager.rs` 439–452): when the task
actor exists, set the status to `Running` and forward `StartTask` to it.
The table is *not* persisted here. -/
def ManagerState.handleInternalStartTask (s : ManagerState) (id : Nat) : ManagerState :=
  if s.tasks.contains id then
    { s with metas := updateMeta s.metas id fun meta => { meta with status := .Running } }
  else s

/-- `Handler<CancelTask>` (`actor_manager.rs` 464–475): when the task actor
exists, set the status to `Cancelled` and forward the cancel to it.  The
table is *not* persisted here. -/
def ManagerState.handleCancelTask (s : ManagerState) (id : Nat) : ManagerState :=
  if s.tasks.contains id then
    { s with metas := updateMeta s.metas id fun meta => { meta with status := .Cancelled } }
  else s

/-- `Handler<UpdateTaskProgress>` (`actor_manager.rs` 528–538): record the
progress triple; no persistence. -/
def ManagerState.handleUpdateTaskProgress (s : ManagerState) (id : Nat)
    (progress downloaded total : Nat) : ManagerState :=
  { s with
    metas := updateMeta s.metas id fun meta =>
      { meta with progress := progress, downloaded := downloaded, total := total } }

/-- `Handler<MarkTaskCompleted>` (`actor_manager.rs` 540–551): set
`Completed`, progress 100, and persist. -/
def ManagerState.handleMarkTaskCompleted (s : ManagerState) (id : Nat) : ManagerState :=
  ManagerState.save_tasks_to_file
    { s with
      metas := updateMeta s.metas id fun meta =>
        { meta with status := .Completed, progress := 100 } }

/-- `Handler<MarkTaskFailed>` (`actor_manager.rs` 553–562): set `Failed` and
persist. -/
def ManagerState.handleMarkTaskFailed (s : ManagerState) (id : Nat)
    (error : DownloadError) : ManagerState :=
  ManagerState.save_tasks_to_file
    { s with
      metas := updateMeta s.metas id fun meta =>
        { meta with status := .Failed error.display } }

/-! # Theorems -/

/-! ## Buffered-writer accounting -/

/-- One `write` call preserves the buffer size, keeps the write position
strictly inside the buffer, and accounts for every byte: the buffered plus
flushed totals grow by exactly the bytes written. -/
theorem BufferManager.write_counts (n : Nat) :
    ∀ bm : BufferManager, bm.current_pos < bm.buffer_size →
      (bm.write n).buffer_size = bm.buffer_size ∧
      (bm.write n).current_pos < (bm.write n).buffer_size ∧
      (bm.write n).total_written + (bm.write n).current_pos =
        bm.total_written + bm.current_pos + n := by
  induction n using Nat.strong_induction_on with
  | _ n ih =>
    intro bm hpos
    rw [BufferManager.write]
    by_cases h0 : n = 0
    · simp [h0, hpos]
    · have hcopy : 0 < min (bm.buffer_size - bm.current_pos) n := by omega
      rw [if_neg h0, dif_pos hcopy]
      by_cases hfull : bm.current_pos + min (bm.buffer_size - bm.current_pos) n = bm.buffer_size
      · rw [if_pos hfull]
        have hrec := ih (n - min (bm.buffer_size - bm.current_pos) n) (by omega)
          { bm with
            current_pos := 0
            total_written :=
              bm.total_written + (bm.current_pos + min (bm.buffer_size - bm.current_pos) n) }
          (by simpa using by omega)
        refine ⟨by simpa using hrec.1, hrec.2.1, ?_⟩
        have h3 := hrec.2.2
        simp only at h3
        omega
      · rw [if_neg hfull]
        have hrec := ih (n - min (bm.buffer_size - bm.current_pos) n) (by omega)
          { bm with current_pos := bm.current_pos + min (bm.buffer_size - bm.current_pos) n }
          (by simpa using by omega)
        refine ⟨by simpa using hrec.1, hrec.2.1, ?_⟩
        have h3 := hrec.2.2
        simp only at h3
        omega

/-- Folding `write` over a frame list accounts for the total byte count. -/
theorem BufferManager.foldl_write_counts (frames : List Nat) :
    ∀ bm : BufferManager, bm.current_pos < bm.buffer_size →
      (frames.foldl BufferManager.write bm).buffer_size = bm.buffer_size ∧
      (frames.foldl BufferManager.write bm).current_pos <
        (frames.foldl BufferManager.write bm).buffer_size ∧
      (frames.foldl BufferManager.write bm).total_written +
          (frames.foldl BufferManager.write bm).current_pos =
        bm.total_written + bm.current_pos + frames.sum := by
  induction frames with
  | nil => intro bm hpos; simpa using hpos
  | cons f rest ih =>
    intro bm hpos
    have hw := BufferManager.write_counts f bm hpos
    have hr := ih (bm.write f) (hw.1 ▸ hw.2.1)
    simp only [List.foldl_cons, List.sum_cons]
    refine ⟨hr.1.trans hw.1, hr.2.1, ?_⟩
    omega

/-- `flush` empties the buffer into the flushed total. -/
theorem BufferManager.flush_spec (bm : BufferManager) :
    bm.flush.total_written = bm.total_written + bm.current_pos ∧
    bm.flush.current_pos = 0 := by
  unfold BufferManager.flush
  by_cases h : 0 < bm.current_pos
  · simp [h]
  · simp [h]; omega

/-! ## C10 — single-connection mode with no parseable Content-Length -/

/-- C10.  In single-connection mode, when the response carries no parseable
`Content-Length` header (so the total parses to 0 via `unwrap_or(0)`),
`perform_single_download` never returns `Ok`: after any complete, error-free
frame stream and the final flush it returns `SizeMismatch` with
`expected = 0` and `actual =` the number of bytes written, because the
success condition demands `total_written ≥ total` *and* `total > 0`. -/
theorem single_download_zero_total_size_mismatch (header : Option String)
    (hparse : header.bind String.toNat? = none) (frames : List Nat) :
    perform_single_download (parseContentLength header) frames =
      .error (.SizeMismatch 0 frames.sum) := by
  have htotal : parseContentLength header = 0 := by
    unfold parseContentLength; rw [hparse]; rfl
  rw [htotal]
  unfold perform_single_download
  have hfold := BufferManager.foldl_write_counts frames (BufferManager.new (1024 * 1024))
    (by unfold BufferManager.new; simp)
  have hflush := BufferManager.flush_spec (frames.foldl BufferManager.write
    (BufferManager.new (1024 * 1024)))
  have hwritten :
      ((frames.foldl BufferManager.write (BufferManager.new (1024 * 1024))).flush).total_written =
        frames.sum := by
    rw [hflush.1]
    have := hfold.2.2
    unfold BufferManager.new at this ⊢
    simp only at this ⊢
    omega
  simp [hwritten]

/-- Witness for C10 at `header = none`, frames of 3 and 5 bytes. -/
theorem single_download_zero_total_size_mismatch_witness :
    perform_single_download (parseContentLength none) [3, 5] =
      .error (.SizeMismatch 0 8) :=
  single_download_zero_total_size_mismatch none rfl [3, 5]

/-! ## C1 — mode selection ignores `Accept-Ranges` -/

/-- Counterexample for C1.  Chunked download enabled, probed size 4096 above
`min_chunk_size = 1024`, but the server does *not* advertise byte-range
support: `Handler<StartTask>` still enters chunked mode, while the claimed
rule (`use_chunked_spec`) selects single-connection mode. -/
theorem use_chunked_range_support_counterexample :
    use_chunked
        { max_concurrent_downloads := 3, chunk_size := 1024, min_chunk_size := 1024,
          enable_chunked_download := true, enable_resume := true, retry_count := 3,
          retryable_errors := [], speed_limit_kb := 0 }
        { size := 4096, supports_range := false, last_modified := none, etag := none } = true ∧
    use_chunked_spec
        { max_concurrent_downloads := 3, chunk_size := 1024, min_chunk_size := 1024,
          enable_chunked_download := true, enable_resume := true, retry_count := 3,
          retryable_errors := [], speed_limit_kb := 0 }
        { size := 4096, supports_range := false, last_modified := none, etag := none } = false := by
  constructor <;> rfl

/-- C1 (amended).  Chunked mode is entered if and only if chunked download
is enabled in configuration and the probed total size exceeds
`min_chunk_size`; the probed `Accept-Ranges` flag is not consulted (the
decision is invariant under it). -/
theorem use_chunked_mode_selection (config : Config) (file_info : FileInfo) :
    (use_chunked config file_info = true ↔
      config.enable_chunked_download = true ∧ config.min_chunk_size < file_info.size) ∧
    (∀ b, use_chunked config { file_info with supports_range := b } =
      use_chunked config file_info) := by
  unfold use_chunked
  constructor
  · simp
  · intro b; rfl

/-! ## C4 — the failed-chunk retry path is dead -/

/-- The retry probe error `Unknown("chunk_download_failed")` is classified
non-retryable by `RetryContext::is_retryable_error`: its lowered display
form, `未知错误: chunk_download_failed`, contains none of the twelve
`RETRYABLE_ERRORS` substrings. -/
theorem probe_error_not_retryable (c : RetryContext) :
    c.is_retryable_error (.Unknown "chunk_download_failed") = false := by
  unfold RetryContext.is_retryable_error
  decide

/-- C4.  In every state whose failed set is non-empty and whose task-wide
retry count is below the configured maximum, `should_retry_failed_chunks`
reports that a retry round is due, yet `get_failed_chunks_for_retry`
returns the empty list and `retry_failed_chunks` removes nothing from the
failed set and re-dispatches nothing — because each failed index is probed
with the hard-coded error `Unknown("chunk_download_failed")`, which the
classifier rejects.  The claim (and the spec's `retry_failed` contract)
describes the evident intent; the code's retry path can never fire. -/
theorem retry_failed_chunks_dead (m : ChunkedDownloadManager)
    (hfail : 0 < m.failed_chunks.length)
    (hbudget : m.retry_context.current_retries < m.retry_context.max_retries) :
    m.should_retry_failed_chunks = true ∧
    m.get_failed_chunks_for_retry = [] ∧
    m.retry_failed_chunks = (m, []) := by
  have hprobe : m.retry_context.should_retry (.Unknown "chunk_download_failed") = false := by
    unfold RetryContext.should_retry
    rw [probe_error_not_retryable]
    simp
  have hempty : m.get_failed_chunks_for_retry = [] := by
    unfold ChunkedDownloadManager.get_failed_chunks_for_retry
    rw [hprobe]
    simp
  refine ⟨?_, hempty, ?_⟩
  · unfold ChunkedDownloadManager.should_retry_failed_chunks
    simp [hfail, hbudget]
  · unfold ChunkedDownloadManager.retry_failed_chunks
    rw [hempty]
    rfl

/-- Witness for C4: one failed chunk, no retries used, budget 3. -/
theorem retry_failed_chunks_dead_witness :
    ((ChunkedDownloadManager.new 10 5 "f").mark_chunk_failed 0).should_retry_failed_chunks
        = true ∧
    ((ChunkedDownloadManager.new 10 5 "f").mark_chunk_failed 0).get_failed_chunks_for_retry
        = [] ∧
    ((ChunkedDownloadManager.new 10 5 "f").mark_chunk_failed 0).retry_failed_chunks
        = ((ChunkedDownloadManager.new 10 5 "f").mark_chunk_failed 0, []) :=
  retry_failed_chunks_dead ((ChunkedDownloadManager.new 10 5 "f").mark_chunk_failed 0)
    (by decide) (by decide)

/-! ## C8 — task-table persistence gaps -/

/-- Counterexample for C8.  Create a task (persisted as `Pending`), then let
`InternalStartTask` move it to `Running` on permit acquisition: the
in-memory table and the persisted table now disagree — the
Pending-to-Running transition does not rewrite `downloads/tasks.json`. -/
theorem start_transition_not_persisted_counterexample :
    ((ManagerState.handleCreateTask ⟨[], [], []⟩ 1 "https://u" "f").handleInternalStartTask
        1).metas ≠
      ((ManagerState.handleCreateTask ⟨[], [], []⟩ 1 "https://u" "f").handleInternalStartTask
        1).disk := by
  decide

/-- C8 (amended).  The persisted task table is rewritten to match the
in-memory table by task creation, completion and failure; but the
Pending-to-Running transition on permit acquisition, cancellation, and
progress updates mutate the in-memory table without persisting (the disk
copy is left as it was). -/
theorem task_table_persistence (s : ManagerState) (id : Nat) (url file : String)
    (progress downloaded total : Nat) (error : DownloadError) :
    (s.handleCreateTask id url file).disk = (s.handleCreateTask id url file).metas ∧
    (s.handleMarkTaskCompleted id).disk = (s.handleMarkTaskCompleted id).metas ∧
    (s.handleMarkTaskFailed id error).disk = (s.handleMarkTaskFailed id error).metas ∧
    (s.handleInternalStartTask id).disk = s.disk ∧
    (s.handleCancelTask id).disk = s.disk ∧
    (s.handleUpdateTaskProgress id progress downloaded total).disk = s.disk := by
  refine ⟨rfl, rfl, rfl, ?_, ?_, rfl⟩
  · unfold ManagerState.handleInternalStartTask
    split <;> rfl
  · unfold ManagerState.handleCancelTask
    split <;> rfl

/-! ## C7 — permit release discipline -/

/-- Counterexample for C7.  A running task holding its permit receives
`CancelTask`: the status becomes the terminal `Cancelled`, yet the handler
leaves `self.permit` in place and releases nothing — contradicting
"released exactly once, at the transition into *any* terminal state". -/
theorem cancel_keeps_permit_counterexample :
    (TaskActor.handleCancelTask
        { status := .Running, is_paused := false, is_cancelled := false,
          permit := true, chunk_manager := none }).1.status = .Cancelled ∧
    (TaskActor.handleCancelTask
        { status := .Running, is_paused := false, is_cancelled := false,
          permit := true, chunk_manager := none }).1.permit = true ∧
    (TaskActor.handleCancelTask
        { status := .Running, is_paused := false, is_cancelled := false,
          permit := true, chunk_manager := none }).2 = 0 := by
  refine ⟨rfl, rfl, rfl⟩

/-- Permit accounting over any message sequence without a `StartTask`: the
permits released plus the permit still held always equal the permit count at
the start.  In particular a held permit is released at most once, and only
by dropping it. -/
theorem TaskActor.run_permit_account (msgs : List TaskMsg) :
    ∀ a : TaskActor, TaskMsg.startTask ∉ msgs →
      (a.run msgs).2 + (if (a.run msgs).1.permit then 1 else 0) =
        (if a.permit then 1 else 0) := by
  induction msgs with
  | nil => intro a _; simp [TaskActor.run]
  | cons msg rest ih =>
    intro a hno
    have hrest : TaskMsg.startTask ∉ rest := fun h => hno (List.mem_cons_of_mem msg h)
    have hih := ih (a.step msg).1 hrest
    have hstep : (a.step msg).2 + (if (a.step msg).1.permit then 1 else 0) =
        (if a.permit then 1 else 0) := by
      cases msg with
      | startTask => exact absurd (List.mem_cons_self _ _) hno
      | pauseTask => simp [TaskActor.step, TaskActor.handlePauseTask]
      | cancelTask => simp [TaskActor.step, TaskActor.handleCancelTask]
      | markCompleted =>
        by_cases h : a.permit <;> simp [TaskActor.step, TaskActor.handleMarkCompleted, h]
      | markFailed e =>
        by_cases h : a.permit <;> simp [TaskActor.step, TaskActor.handleMarkFailed, h]
    simp only [TaskActor.run]
    omega

/-- C7 (amended).  The permit is released by the `MarkCompleted` and
`MarkFailed` handlers — the transitions into `Completed` and `Failed` — by
taking it out of its slot, so it is released at most once over any message
sequence (permit accounting).  The `CancelTask` handler transitions to the
terminal `Cancelled` without releasing the permit, and `PauseTask` never
releases it. -/
theorem permit_release_discipline (a : TaskActor) (error : DownloadError)
    (msgs : List TaskMsg) (hpermit : a.permit = true)
    (hnostart : TaskMsg.startTask ∉ msgs) :
    (a.handleMarkCompleted.1.status = .Completed ∧ a.handleMarkCompleted.1.permit = false ∧
      a.handleMarkCompleted.2 = 1) ∧
    ((a.handleMarkFailed error).1.status = .Failed error.display ∧
      (a.handleMarkFailed error).1.permit = false ∧ (a.handleMarkFailed error).2 = 1) ∧
    (a.handleCancelTask.1.status = .Cancelled ∧ a.handleCancelTask.1.permit = true ∧
      a.handleCancelTask.2 = 0) ∧
    (a.handlePauseTask.1.status = .Paused ∧ a.handlePauseTask.1.permit = true ∧
      a.handlePauseTask.2 = 0) ∧
    (a.run msgs).2 + (if (a.run msgs).1.permit then 1 else 0) = 1 := by
  refine ⟨⟨rfl, rfl, ?_⟩, ⟨rfl, rfl, ?_⟩, ⟨rfl, ?_, rfl⟩, ⟨rfl, ?_, rfl⟩, ?_⟩
  · simp [TaskActor.handleMarkCompleted, hpermit]
  · simp [TaskActor.handleMarkFailed, hpermit]
  · simp [TaskActor.handleCancelTask, hpermit]
  · simp [TaskActor.handlePauseTask, hpermit]
  · rw [TaskActor.run_permit_account msgs a hnostart, hpermit]
    simp

/-- Witness for C7: a running permit-holding task, a failure error, and the
message sequence pause–cancel–complete (one release in total). -/
theorem permit_release_discipline_witness :
    (TaskActor.run
        { status := .Running, is_paused := false, is_cancelled := false,
          permit := true, chunk_manager := none }
        [.pauseTask, .cancelTask, .markCompleted]).2 +
      (if (TaskActor.run
        { status := .Running, is_paused := false, is_cancelled := false,
          permit := true, chunk_manager := none }
        [.pauseTask, .cancelTask, .markCompleted]).1.permit then 1 else 0) = 1 :=
  (permit_release_discipline
    { status := .Running, is_paused := false, is_cancelled := false,
      permit := true, chunk_manager := none }
    (.Timeout) [.pauseTask, .cancelTask, .markCompleted] rfl (by decide)).2.2.2.2

/-! ## C6 — resume records survive completion -/

/-- Counterexample for C6.  A one-chunk task with resume enabled completes
its last chunk: the engine *re-writes* the resume record, merges, removes
the temp directory and transitions to `Completed`; no effect on the path
deletes `downloads/resume_<task-id>.json`, so the record still exists on
disk for a task in the terminal `Completed` state. -/
theorem resume_record_survives_completion_counterexample :
    (TaskActor.handleChunkOk
        { status := .Running, is_paused := false, is_cancelled := false, permit := true,
          chunk_manager := some (ChunkedDownloadManager.new 5 10 "out.bin") }
        7 "out.bin" true 0 true).1.status = .Completed ∧
    (TaskActor.handleChunkOk
        { status := .Running, is_paused := false, is_cancelled := false, permit := true,
          chunk_manager := some (ChunkedDownloadManager.new 5 10 "out.bin") }
        7 "out.bin" true 0 true).2 =
      [.writeResume "downloads/resume_7.json", .writeOutput "out.bin",
       .removeTempDir "downloads/temp/out.bin"] ∧
    (TaskActor.handleChunkOk
        { status := .Running, is_paused := false, is_cancelled := false, permit := true,
          chunk_manager := some (ChunkedDownloadManager.new 5 10 "out.bin") }
        7 "out.bin" true 0 true).2.filter FsEffect.isRemoveResume = [] := by
  refine ⟨rfl, rfl, rfl⟩

/-- C6 (amended).  The chunk-completion path never deletes a resume record;
when the last chunk completes with resume enabled, the record is re-written
(first effect) and the task then transitions to `Completed` with the record
still on disk.  The claimed invariant — record exists iff the chunked task
is non-terminal, deleted before `Completed` — fails in this direction. -/
theorem completion_path_resume_record (a : TaskActor) (cm : ChunkedDownloadManager)
    (task_id : Nat) (file : String) (chunk_index : Nat)
    (enable_resume merge_ok : Bool) (hcm : a.chunk_manager = some cm) :
    (∀ p, FsEffect.removeResume p ∉
      (a.handleChunkOk task_id file enable_resume chunk_index merge_ok).2) ∧
    ((cm.mark_chunk_completed chunk_index).is_completed = true → enable_resume = true →
      merge_ok = true →
      (a.handleChunkOk task_id file enable_resume chunk_index merge_ok).1.status =
        .Completed ∧
      (a.handleChunkOk task_id file enable_resume chunk_index merge_ok).2.head? =
        some (.writeResume (resumePath task_id))) := by
  unfold TaskActor.handleChunkOk
  rw [hcm]
  constructor
  · intro p
    cases hdone : (cm.mark_chunk_completed chunk_index).is_completed <;>
      cases hres : enable_resume <;>
        cases hmerge : merge_ok <;> simp [hdone]
  · intro hdone hres hmerge
    subst hres hmerge
    simp [hdone]

/-- Witness for C6 on the one-chunk task of the counterexample state. -/
theorem completion_path_resume_record_witness :
    (TaskActor.handleChunkOk
        { status := .Running, is_paused := false, is_cancelled := false, permit := true,
          chunk_manager := some (ChunkedDownloadManager.new 5 10 "out.bin") }
        7 "out.bin" true 0 true).2.head? =
      some (.writeResume (resumePath 7)) :=
  ((completion_path_resume_record
      { status := .Running, is_paused := false, is_cancelled := false, permit := true,
        chunk_manager := some (ChunkedDownloadManager.new 5 10 "out.bin") }
      (ChunkedDownloadManager.new 5 10 "out.bin") 7 "out.bin" 0 true true rfl).2
    (by decide) rfl rfl).2

/-! ## C3 — the retry classifier -/

/-- C3.  `RetryStrategy::should_retry` returns `false` whenever the count
has reached `max_retries`; below the budget, `NetworkError` and `Timeout`
are always retryable, `ServerError` is retryable iff its message contains
one of 500, 502, 503, 504, 507, 508, the seven fatal kinds are never
retryable, and `IoError`/`Unknown` are retryable exactly when their lowered
text (`error.to_string()` for `IoError`, the raw message for `Unknown`)
contains one of the configured retryable substrings. -/
theorem should_retry_classification (s : RetryStrategy) (n : Nat) :
    (∀ error, s.max_retries ≤ n → s.should_retry error n = false) ∧
    (n < s.max_retries →
      (∀ msg, s.should_retry (.NetworkError msg) n = true) ∧
      s.should_retry .Timeout n = true ∧
      (∀ msg, s.should_retry (.ServerError msg) n = true ↔
        (strContains msg "500" = true ∨ strContains msg "502" = true ∨
         strContains msg "503" = true ∨ strContains msg "504" = true ∨
         strContains msg "507" = true ∨ strContains msg "508" = true)) ∧
      (∀ msg, s.should_retry (.InvalidUrl msg) n = false) ∧
      (∀ msg, s.should_retry (.FileExists msg) n = false) ∧
      (∀ e a, s.should_retry (.SizeMismatch e a) n = false) ∧
      (∀ e a, s.should_retry (.ChecksumMismatch e a) n = false) ∧
      (∀ msg, s.should_retry (.ResumeFailed msg) n = false) ∧
      (∀ msg, s.should_retry (.PermissionError msg) n = false) ∧
      (∀ r a, s.should_retry (.InsufficientSpace r a) n = false) ∧
      (∀ msg, s.should_retry (.IoError msg) n = true ↔
        ∃ retryable ∈ s.retryable_errors,
          strContains (strLower (DownloadError.display (.IoError msg))) retryable = true) ∧
      (∀ msg, s.should_retry (.Unknown msg) n = true ↔
        ∃ retryable ∈ s.retryable_errors,
          strContains (strLower msg) retryable = true)) := by
  constructor
  · intro error h
    unfold RetryStrategy.should_retry
    rw [if_pos h]
  · intro hlt
    have hnot : ¬ s.max_retries ≤ n := by omega
    refine ⟨fun msg => by simp [RetryStrategy.should_retry, hnot],
      by simp [RetryStrategy.should_retry, hnot],
      fun msg => by simp [RetryStrategy.should_retry, hnot, Bool.or_eq_true, or_assoc],
      fun msg => by simp [RetryStrategy.should_retry, hnot],
      fun msg => by simp [RetryStrategy.should_retry, hnot],
      fun e a => by simp [RetryStrategy.should_retry, hnot],
      fun e a => by simp [RetryStrategy.should_retry, hnot],
      fun msg => by simp [RetryStrategy.should_retry, hnot],
      fun msg => by simp [RetryStrategy.should_retry, hnot],
      fun r a => by simp [RetryStrategy.should_retry, hnot],
      fun msg => by simp [RetryStrategy.should_retry, hnot, List.any_eq_true],
      fun msg => by simp [RetryStrategy.should_retry, hnot, List.any_eq_true]⟩

/-- Witness for C3 at the default strategy: a 503 server error is retryable
on the first attempt. -/
theorem should_retry_classification_witness :
    RetryStrategy.default.should_retry (.ServerError "服务器错误: 503 Service Unavailable") 0
      = true :=
  (((should_retry_classification RetryStrategy.default 0).2 (by decide)).2.2.1
    "服务器错误: 503 Service Unavailable").mpr (by decide)

/-! ## C5 — resume validation -/

/-- Counterexample for C5.  The stored record carries an ETag, the current
probe does not — yet both sides carry the same `Last-Modified`, so
validation *succeeds* (the `Last-Modified` branch is reached because the
ETag pattern requires both sides).  The claim demands `ResumeFailed` for
every one-sided-ETag input regardless of the `Last-Modified` values. -/
theorem resume_one_sided_etag_counterexample :
    (ChunkedDownloadManager.new 10 5 "f").load_and_validate_resume_info
        { task_id := 1, url := "https://u", file := "f", downloaded_chunks := [],
          total_size := 10, last_modified := some "x", etag := some "a" }
        { size := 10, supports_range := true, last_modified := some "x", etag := none } =
      .ok (ChunkedDownloadManager.new 10 5 "f") := by
  rfl

/-- C5 (amended).  `load_and_validate_resume_info` returns `ResumeFailed`
exactly when: both ETags are present and differ; or not both ETags are
present, both `Last-Modified` values are present and differ; or neither pair
is fully present and some validator exists on exactly one side.  Otherwise
it restores the stored completed ranges (`restoreRange` fold).  A one-sided
ETag is thus conservatively rejected only when the `Last-Modified` pair does
not decide first. -/
theorem resume_validation_spec (m : ChunkedDownloadManager) (r : ResumeInfo)
    (cur : FileInfo) :
    (((∃ a b, r.etag = some a ∧ cur.etag = some b ∧ a ≠ b) ∨
      (¬(r.etag.isSome = true ∧ cur.etag.isSome = true) ∧
        ∃ x y, r.last_modified = some x ∧ cur.last_modified = some y ∧ x ≠ y) ∨
      (¬(r.etag.isSome = true ∧ cur.etag.isSome = true) ∧
        ¬(r.last_modified.isSome = true ∧ cur.last_modified.isSome = true) ∧
        (r.etag.isSome ≠ cur.etag.isSome ∨
          r.last_modified.isSome ≠ cur.last_modified.isSome))) →
      ∃ msg, m.load_and_validate_resume_info r cur = .error (.ResumeFailed msg)) ∧
    (¬((∃ a b, r.etag = some a ∧ cur.etag = some b ∧ a ≠ b) ∨
      (¬(r.etag.isSome = true ∧ cur.etag.isSome = true) ∧
        ∃ x y, r.last_modified = some x ∧ cur.last_modified = some y ∧ x ≠ y) ∨
      (¬(r.etag.isSome = true ∧ cur.etag.isSome = true) ∧
        ¬(r.last_modified.isSome = true ∧ cur.last_modified.isSome = true) ∧
        (r.etag.isSome ≠ cur.etag.isSome ∨
          r.last_modified.isSome ≠ cur.last_modified.isSome))) →
      m.load_and_validate_resume_info r cur =
        .ok (r.downloaded_chunks.foldl ChunkedDownloadManager.restoreRange m)) := by
  rcases hre : r.etag with _ | a <;> rcases hce : cur.etag with _ | b <;>
    rcases hrl : r.last_modified with _ | x <;> rcases hcl : cur.last_modified with _ | y <;>
    simp [ChunkedDownloadManager.load_and_validate_resume_info, hre, hce, hrl, hcl] <;>
    first
      | (by_cases hab : a = b <;> simp [hab])
      | (by_cases hxy : x = y <;> simp [hxy])

/-- Witness for C5: both ETags present and different fails with
`ResumeFailed`. -/
theorem resume_validation_spec_witness :
    ∃ msg,
      (ChunkedDownloadManager.new 10 5 "f").load_and_validate_resume_info
          { task_id := 1, url := "https://u", file := "f", downloaded_chunks := [],
            total_size := 10, last_modified := none, etag := some "a" }
          { size := 10, supports_range := true, last_modified := none, etag := some "b" } =
        .error (.ResumeFailed msg) :=
  (resume_validation_spec (ChunkedDownloadManager.new 10 5 "f")
      { task_id := 1, url := "https://u", file := "f", downloaded_chunks := [],
        total_size := 10, last_modified := none, etag := some "a" }
      { size := 10, supports_range := true, last_modified := none, etag := some "b" }).1
    (Or.inl ⟨"a", "b", rfl, rfl, by decide⟩)

/-! ## C2 — chunk construction partitions the byte range -/

/-- The chunk list built by `ChunkedDownloadManager::new` has
`⌈total/chunk_size⌉` entries. -/
theorem new_chunks_length (total_size chunk_size : Nat) (file_name : String) :
    (ChunkedDownloadManager.new total_size chunk_size file_name).chunks.length =
      (total_size + chunk_size - 1) / chunk_size := by
  simp [ChunkedDownloadManager.new]

/-- The `i`-th chunk built by `ChunkedDownloadManager::new`, for `i` in
range. -/
theorem new_chunks_getD (total_size chunk_size : Nat) (file_name : String) (i : Nat)
    (hi : i < (total_size + chunk_size - 1) / chunk_size) :
    (ChunkedDownloadManager.new total_size chunk_size file_name).chunks.getD i default =
      { start := i * chunk_size
        «end» :=
          if i = (total_size + chunk_size - 1) / chunk_size - 1 then total_size - 1
          else (i + 1) * chunk_size - 1
        downloaded := 0
        completed := false } := by
  unfold ChunkedDownloadManager.new
  simp [List.getD, List.getElem?_map, List.getElem?_range, hi]

/-- C2.  For every `total > 0` and `chunk_size ≥ 1`, `new` creates
`N = ⌈total/chunk_size⌉` chunks; chunk `i` starts at `i·chunk_size` and
ends at `min((i+1)·chunk_size − 1, total − 1)`; the chunks contiguously
partition `[0, total−1]` (first start 0, last end `total−1`, each start one
past the previous end); every chunk but the last spans exactly `chunk_size`
bytes; and `total = chunk_size` yields exactly one chunk. -/
theorem chunk_partition_spec (total_size chunk_size : Nat) (file_name : String)
    (htotal : 0 < total_size) (hcs : 1 ≤ chunk_size) :
    (ChunkedDownloadManager.new total_size chunk_size file_name).chunks.length =
      (total_size + chunk_size - 1) / chunk_size ∧
    (∀ i, i < (total_size + chunk_size - 1) / chunk_size →
      ((ChunkedDownloadManager.new total_size chunk_size file_name).chunks.getD i
          default).start = i * chunk_size ∧
      ((ChunkedDownloadManager.new total_size chunk_size file_name).chunks.getD i
          default).«end» = min ((i + 1) * chunk_size - 1) (total_size - 1)) ∧
    ((ChunkedDownloadManager.new total_size chunk_size file_name).chunks.getD 0
        default).start = 0 ∧
    ((ChunkedDownloadManager.new total_size chunk_size file_name).chunks.getD
        ((total_size + chunk_size - 1) / chunk_size - 1) default).«end» = total_size - 1 ∧
    (∀ i, i + 1 < (total_size + chunk_size - 1) / chunk_size →
      ((ChunkedDownloadManager.new total_size chunk_size file_name).chunks.getD (i + 1)
          default).start =
        ((ChunkedDownloadManager.new total_size chunk_size file_name).chunks.getD i
            default).«end» + 1) ∧
    (∀ i, i + 1 < (total_size + chunk_size - 1) / chunk_size →
      ((ChunkedDownloadManager.new total_size chunk_size file_name).chunks.getD i
            default).«end» -
          ((ChunkedDownloadManager.new total_size chunk_size file_name).chunks.getD i
              default).start + 1 = chunk_size) ∧
    (total_size = chunk_size → (total_size + chunk_size - 1) / chunk_size = 1) := by
  have hN : (total_size + chunk_size - 1) / chunk_size = (total_size - 1) / chunk_size + 1 := by
    have h1 : total_size + chunk_size - 1 = (total_size - 1) + chunk_size := by omega
    rw [h1, Nat.add_div_right _ (by omega)]
  have hqr := Nat.div_add_mod (total_size - 1) chunk_size
  have hr : (total_size - 1) % chunk_size < chunk_size :=
    Nat.mod_lt _ (by omega)
  have hub : total_size ≤ ((total_size - 1) / chunk_size + 1) * chunk_size := by
    have e1 : ((total_size - 1) / chunk_size + 1) * chunk_size =
        chunk_size * ((total_size - 1) / chunk_size) + chunk_size := by ring
    rw [e1]
    omega
  have hlow : ∀ i, i + 1 ≤ (total_size - 1) / chunk_size →
      (i + 1) * chunk_size ≤ total_size - 1 := by
    intro i hi
    have h2 : (i + 1) * chunk_size ≤ ((total_size - 1) / chunk_size) * chunk_size :=
      Nat.mul_le_mul_right chunk_size hi
    have e2 : ((total_size - 1) / chunk_size) * chunk_size =
        chunk_size * ((total_size - 1) / chunk_size) := by ring
    rw [e2] at h2
    omega
  have hrange : ∀ i, i < (total_size + chunk_size - 1) / chunk_size →
      ((ChunkedDownloadManager.new total_size chunk_size file_name).chunks.getD i
          default).start = i * chunk_size ∧
      ((ChunkedDownloadManager.new total_size chunk_size file_name).chunks.getD i
          default).«end» = min ((i + 1) * chunk_size - 1) (total_size - 1) := by
    intro i hi
    rw [new_chunks_getD total_size chunk_size file_name i hi]
    refine ⟨rfl, ?_⟩
    by_cases hlast : i = (total_size + chunk_size - 1) / chunk_size - 1
    · rw [if_pos hlast]
      have hiq : i = (total_size - 1) / chunk_size := by omega
      rw [Nat.min_eq_right]
      subst hiq
      omega
    · rw [if_neg hlast]
      have hiq : i + 1 ≤ (total_size - 1) / chunk_size := by omega
      have := hlow i hiq
      rw [Nat.min_eq_left]
      omega
  refine ⟨new_chunks_length total_size chunk_size file_name, hrange, ?_, ?_, ?_, ?_, ?_⟩
  · have h0 : 0 < (total_size + chunk_size - 1) / chunk_size := by
      rw [hN]; exact Nat.succ_pos _
    have := (hrange 0 h0).1
    simpa using this
  · have hlt : (total_size + chunk_size - 1) / chunk_size - 1 <
        (total_size + chunk_size - 1) / chunk_size := by
      rw [hN, Nat.add_sub_cancel]; exact Nat.lt_succ_self _
    have hlast := (hrange _ hlt).2
    rw [hlast, Nat.min_eq_right]
    have hiq : (total_size + chunk_size - 1) / chunk_size - 1 =
        (total_size - 1) / chunk_size := by
      rw [hN, Nat.add_sub_cancel]
    rw [hiq]
    omega
  · intro i hi
    have h1 := (hrange (i + 1) hi).1
    have h2 := (hrange i (by omega)).2
    rw [h1, h2]
    have hiq : i + 1 ≤ (total_size - 1) / chunk_size := by omega
    have := hlow i hiq
    rw [Nat.min_eq_left (by omega)]
    have e : (i + 1) * chunk_size = i * chunk_size + chunk_size := by ring
    omega
  · intro i hi
    have h1 := (hrange i (by omega)).1
    have h2 := (hrange i (by omega)).2
    rw [h1, h2]
    have hiq : i + 1 ≤ (total_size - 1) / chunk_size := by omega
    have := hlow i hiq
    rw [Nat.min_eq_left (by omega)]
    have e : (i + 1) * chunk_size = i * chunk_size + chunk_size := by ring
    omega
  · intro heq
    subst heq
    have hlo : 1 * total_size ≤ total_size + total_size - 1 := by omega
    have hhi : total_size + total_size - 1 < 2 * total_size := by omega
    exact Nat.div_eq_of_lt_le hlo hhi

/-- Witness for C2 at `total = 10`, `chunk_size = 4`: three chunks, the last
ending at byte 9. -/
theorem chunk_partition_spec_witness :
    (ChunkedDownloadManager.new 10 4 "f").chunks.length = 3 ∧
    ((ChunkedDownloadManager.new 10 4 "f").chunks.getD 2 default).«end» = 9 := by
  have h := chunk_partition_spec 10 4 "f" (by decide) (by decide)
  exact ⟨h.1, h.2.2.2.1⟩

/-! ## C9 — membership-set discipline of the chunk manager -/

/-- `modifyChunk` preserves the list length. -/
theorem modifyChunk_length (l : List DownloadChunk) (i : Nat)
    (f : DownloadChunk → DownloadChunk) : (modifyChunk l i f).length = l.length := by
  induction l generalizing i with
  | nil => rfl
  | cons c rest ih =>
    cases i with
    | zero => rfl
    | succ n => simp [modifyChunk, ih]

/-- `modifyChunk` leaves other positions unchanged. -/
theorem getD_modifyChunk_ne (l : List DownloadChunk) (i j : Nat)
    (f : DownloadChunk → DownloadChunk) (h : j ≠ i) :
    (modifyChunk l i f).getD j default = l.getD j default := by
  induction l generalizing i j with
  | nil => rfl
  | cons c rest ih =>
    cases i with
    | zero =>
      cases j with
      | zero => exact absurd rfl h
      | succ u => simp [modifyChunk]
    | succ n =>
      cases j with
      | zero => simp [modifyChunk]
      | succ u =>
        simp only [modifyChunk, List.getD_cons_succ]
        exact ih n u (by omega)

/-- `modifyChunk` applies `f` at an in-range position. -/
theorem getD_modifyChunk_self (l : List DownloadChunk) (i : Nat)
    (f : DownloadChunk → DownloadChunk) (h : i < l.length) :
    (modifyChunk l i f).getD i default = f (l.getD i default) := by
  induction l generalizing i with
  | nil => simp at h
  | cons c rest ih =>
    cases i with
    | zero => rfl
    | succ n =>
      simp only [modifyChunk, List.getD_cons_succ]
      exact ih n (by simpa using h)

/-- Counterexample for C9.  On a two-chunk task, complete chunk 0, then mark
chunk 0 failed (reachable: `retry_failed_chunks` re-queues an index without
marking it active, so the 1 s scheduler can dispatch the same chunk twice,
one copy completing and the other failing): index 0 now sits in *both* the
completed and the failed set, so `mark_failed(i)` does not preserve pairwise
disjointness for an `i` already in the completed set. -/
theorem mark_failed_completed_overlap_counterexample :
    0 ∈ (((ChunkedDownloadManager.new 10 5 "f").mark_chunk_completed 0).mark_chunk_failed
          0).completed_chunks ∧
    0 ∈ (((ChunkedDownloadManager.new 10 5 "f").mark_chunk_completed 0).mark_chunk_failed
          0).failed_chunks := by
  decide

/-- C9 (amended).  The freshly constructed manager satisfies the
membership-set invariant (duplicate-free, pairwise disjoint, within
`{0…N−1}`, completed indices flagged), and the invariant is preserved by
`get_next_available_chunk` and — for an index `i` in range that is *not
already completed* — by `mark_chunk_completed(i)` (which moves `i` out of
active, into completed and clears the failed bit) and by
`mark_chunk_failed(i)` (which moves `i` out of active into failed).  For an
`i` already in the completed set, `mark_chunk_failed` breaks the
completed/failed disjointness and `mark_chunk_completed` duplicates `i`, so
the side condition cannot be dropped. -/
theorem chunk_set_invariant_preservation :
    (∀ total_size chunk_size file_name,
      ChunkSetInv (ChunkedDownloadManager.new total_size chunk_size file_name)) ∧
    (∀ m : ChunkedDownloadManager, ChunkSetInv m →
      ChunkSetInv m.get_next_available_chunk.2) ∧
    (∀ (m : ChunkedDownloadManager) (i : Nat), ChunkSetInv m → i < m.chunks.length →
      i ∉ m.completed_chunks →
      ChunkSetInv (m.mark_chunk_completed i) ∧
      i ∉ (m.mark_chunk_completed i).active_chunks ∧
      i ∈ (m.mark_chunk_completed i).completed_chunks ∧
      i ∉ (m.mark_chunk_completed i).failed_chunks) ∧
    (∀ (m : ChunkedDownloadManager) (i : Nat), ChunkSetInv m → i < m.chunks.length →
      i ∉ m.completed_chunks →
      ChunkSetInv (m.mark_chunk_failed i) ∧
      i ∉ (m.mark_chunk_failed i).active_chunks ∧
      i ∈ (m.mark_chunk_failed i).failed_chunks) := by
  refine ⟨?_, ?_, ?_, ?_⟩
  · intro total_size chunk_size file_name
    refine ⟨?_, ?_, ?_, ?_, ?_, ?_, ?_, ?_, ?_, ?_⟩ <;>
      simp [ChunkedDownloadManager.new]
  · intro m hinv
    obtain ⟨h1, h2, h3, h4, h5, h6, h7, h8, h9, h10⟩ := hinv
    unfold ChunkedDownloadManager.get_next_available_chunk
    by_cases hcap : m.max_concurrent_chunks ≤ m.active_chunks.length
    · rw [if_pos hcap]
      exact ⟨h1, h2, h3, h4, h5, h6, h7, h8, h9, h10⟩
    · rw [if_neg hcap]
      cases havail : (List.range m.chunks.length).filter fun i =>
          !(m.chunks.getD i default).completed && !m.is_chunk_active i &&
            !m.is_chunk_failed i with
      | nil => exact ⟨h1, h2, h3, h4, h5, h6, h7, h8, h9, h10⟩
      | cons k rest =>
        have hk : k ∈ (List.range m.chunks.length).filter fun i =>
            !(m.chunks.getD i default).completed && !m.is_chunk_active i &&
              !m.is_chunk_failed i := by
          rw [havail]; exact List.mem_cons_self _ _
        simp only [List.mem_filter, List.mem_range, Bool.and_eq_true, Bool.not_eq_true',
          ChunkedDownloadManager.is_chunk_active, ChunkedDownloadManager.is_chunk_failed] at hk
        obtain ⟨hklen, ⟨hkflag, hkactive⟩, hkfailed⟩ := hk
        have hkactive' : k ∉ m.active_chunks := by simpa using hkactive
        have hkfailed' : k ∉ m.failed_chunks := by simpa using hkfailed
        have hkcomp : k ∉ m.completed_chunks := fun hmem => by
          rw [h10 k hmem] at hkflag; simp at hkflag
        refine ⟨?_, h2, h3, ?_, ?_, h6, ?_, h8, h9, h10⟩
        · simp [List.nodup_append, h1, hkactive']
        · intro j hj
          rcases List.mem_append.mp hj with hj | hj
          · exact h4 j hj
          · rw [List.mem_singleton.mp hj]; exact hkcomp
        · intro j hj
          rcases List.mem_append.mp hj with hj | hj
          · exact h5 j hj
          · rw [List.mem_singleton.mp hj]; exact hkfailed'
        · intro j hj
          rcases List.mem_append.mp hj with hj | hj
          · exact h7 j hj
          · rw [List.mem_singleton.mp hj]; exact hklen
  · intro m i hinv hilen hicomp
    obtain ⟨h1, h2, h3, h4, h5, h6, h7, h8, h9, h10⟩ := hinv
    unfold ChunkedDownloadManager.mark_chunk_completed
    refine ⟨⟨h1.filter _, ?_, h3.filter _, ?_, ?_, ?_, ?_, ?_, ?_, ?_⟩, ?_, ?_, ?_⟩
    · simp [List.nodup_append, h2, hicomp]
    · intro j hj
      have hj' := List.mem_filter.mp hj
      have hjne : j ≠ i := by simpa using hj'.2
      intro hmem
      rcases List.mem_append.mp hmem with hmem | hmem
      · exact h4 j hj'.1 hmem
      · exact hjne (List.mem_singleton.mp hmem)
    · intro j hj
      have hj' := List.mem_filter.mp hj
      intro hmem
      exact h5 j hj'.1 (List.mem_filter.mp hmem).1
    · intro j hj
      rcases List.mem_append.mp hj with hj | hj
      · intro hmem
        exact h6 j hj (List.mem_filter.mp hmem).1
      · rw [List.mem_singleton.mp hj]
        intro hmem
        have := (List.mem_filter.mp hmem).2
        simp at this
    · intro j hj
      rw [modifyChunk_length]
      exact h7 j (List.mem_filter.mp hj).1
    · intro j hj
      rw [modifyChunk_length]
      rcases List.mem_append.mp hj with hj | hj
      · exact h8 j hj
      · rw [List.mem_singleton.mp hj]; exact hilen
    · intro j hj
      rw [modifyChunk_length]
      exact h9 j (List.mem_filter.mp hj).1
    · intro j hj
      rcases List.mem_append.mp hj with hj | hj
      · have hjne : j ≠ i := fun h => hicomp (h ▸ hj)
        rw [getD_modifyChunk_ne _ _ _ _ hjne]
        exact h10 j hj
      · rw [List.mem_singleton.mp hj, getD_modifyChunk_self _ _ _ hilen]
    · intro hmem
      have := (List.mem_filter.mp hmem).2
      simp at this
    · exact List.mem_append_right _ (List.mem_singleton_self i)
    · intro hmem
      have := (List.mem_filter.mp hmem).2
      simp at this
  · intro m i hinv hilen hicomp
    obtain ⟨h1, h2, h3, h4, h5, h6, h7, h8, h9, h10⟩ := hinv
    unfold ChunkedDownloadManager.mark_chunk_failed
    by_cases hcontains : m.failed_chunks.contains i
    · rw [if_pos hcontains]
      have himem : i ∈ m.failed_chunks := by simpa using hcontains
      refine ⟨⟨h1.filter _, h2, h3, ?_, ?_, h6, ?_, h8, h9, h10⟩, ?_, himem⟩
      · intro j hj
        exact h4 j (List.mem_filter.mp hj).1
      · intro j hj
        exact h5 j (List.mem_filter.mp hj).1
      · intro j hj
        exact h7 j (List.mem_filter.mp hj).1
      · intro hmem
        have := (List.mem_filter.mp hmem).2
        simp at this
    · rw [if_neg hcontains]
      have hnmem : i ∉ m.failed_chunks := by simpa using hcontains
      refine ⟨⟨h1.filter _, h2, ?_, ?_, ?_, ?_, ?_, h8, ?_, h10⟩, ?_, ?_⟩
      · simp [List.nodup_append, h3, hnmem]
      · intro j hj
        exact h4 j (List.mem_filter.mp hj).1
      · intro j hj
        have hj' := List.mem_filter.mp hj
        have hjne : j ≠ i := by simpa using hj'.2
        intro hmem
        rcases List.mem_append.mp hmem with hmem | hmem
        · exact h5 j hj'.1 hmem
        · exact hjne (List.mem_singleton.mp hmem)
      · intro j hj
        intro hmem
        rcases List.mem_append.mp hmem with hmem | hmem
        · exact h6 j hj hmem
        · exact hicomp ((List.mem_singleton.mp hmem) ▸ hj)
      · intro j hj
        exact h7 j (List.mem_filter.mp hj).1
      · intro j hj
        rcases List.mem_append.mp hj with hj | hj
        · exact h9 j hj
        · rw [List.mem_singleton.mp hj]; exact hilen
      · intro hmem
        have := (List.mem_filter.mp hmem).2
        simp at this
      · exact List.mem_append_right _ (List.mem_singleton_self i)

/-- Witness for C9: on a fresh two-chunk manager, marking chunk 0 failed
preserves the invariant and lands 0 in the failed set. -/
theorem chunk_set_invariant_preservation_witness :
    ChunkSetInv ((ChunkedDownloadManager.new 10 5 "f").mark_chunk_failed 0) ∧
    0 ∈ ((ChunkedDownloadManager.new 10 5 "f").mark_chunk_failed 0).failed_chunks :=
  have h := chunk_set_invariant_preservation.2.2.2 (ChunkedDownloadManager.new 10 5 "f") 0
    (chunk_set_invariant_preservation.1 10 5 "f") (by decide) (by decide)
  ⟨h.1, h.2.2⟩

end Multidown
